import Mathlib

/-!
Verification of the Recurrence Expansion & Cashflow Projection Engine of the
Paisa repository (a Next.js cashflow calendar).

The embedded code:
* `src/app/lib/recurrence.ts` — `clampDay`, `generateOccurrencesForMonth`;
* `src/app/lib/types.ts` — the data model and `isoDate`;
* `src/app/components/CashflowCalendar.tsx` — `getDaysInMonth`, `computeSnapshots`;
* the unnamed page component (part_002) — `clampDay`, `within`, `ymd`,
  `generateRecurringOccurrences`.

Modelling conventions.

Dates.  All dates in the code are JavaScript `Date` values constructed at UTC
midnight (`Date.UTC(...)` or parsing `"YYYY-MM-DDT00:00:00Z"`), so every valid
timestamp occurring in the code is a whole number of days since the Unix epoch.
We represent such a timestamp by that day number (an `Int`).  ECMAScript's
`MakeDay` is the proleptic Gregorian calendar; `daysFromCivil` below is the
standard closed form for it (Howard Hinnant's `days_from_civil`, with all
divisions floor divisions, which for the positive divisors used here coincide
with Lean's euclidean `/`).  An *invalid* date (`NaN` timestamp) is modelled as
`none : Option Int`; every JS comparison involving `NaN` is `false`, which the
per-site comparison helpers below encode.

The day-number arithmetic used for JS `Date` accessors and updates:
* `getUTCDay()` of day number `n` is `(n + 4) % 7` (1970-01-01 was a Thursday);
* `setUTCDate(getUTCDate() + k)` adds exactly `k` days to the timestamp;
* `toISOString().slice(0, 10)` of day number `n` renders the civil date of `n`
  (`civilFromDays`, the inverse Hinnant formula) zero-padded; parsing a
  canonical `"YYYY-MM-DD"` string back with `"T00:00:00Z"` returns the same
  day number.  Canonical renderings of distinct day numbers are distinct
  strings, so equality tests between ISO date strings are modelled as equality
  of day numbers.  (Years outside 0..9999, where `toISOString` switches to the
  expanded form, are outside the model; every concrete date in this file is in
  the 2000s.)

Numbers.  Transaction and rule amounts are JS floats used only by addition,
subtraction and comparison; they are modelled as exact rationals (`Rat`).

Strings.  Occurrence identifiers are genuine `String`s built exactly as the
source builds them.  A transaction's `date` field is an ISO date string in the
data model (`types.ts`: `date: string; // ISO yyyy-mm-dd`); it is modelled by
`DateField`: `iso n` for the canonical rendering of day number `n`, `bad s`
for any other string (which parses to an invalid date and is never equal to a
canonical rendering).
-/

/-! ### Calendar primitives (ECMAScript `MakeDay` / `Date` semantics) -/

/-- Proleptic-Gregorian leap-year rule, as used by ECMAScript `Date`. -/
def isLeap (y : Int) : Bool := (y % 4 == 0 && y % 100 != 0) || y % 400 == 0

/-- Day number (days since 1970-01-01) of the civil date `(y, m, d)` with
`m` 1-based, i.e. ECMAScript `MakeDay` for an in-range month.  This is the
standard closed form for the proleptic Gregorian calendar. -/
def daysFromCivil (y m d : Int) : Int :=
  let yi := if m ≤ 2 then y - 1 else y
  let era := yi / 400
  let yoe := yi - era * 400
  let doy := (153 * (if m > 2 then m - 3 else m + 9) + 2) / 5 + d - 1
  let doe := yoe * 365 + yoe / 4 - yoe / 100 + doy
  era * 146097 + doe - 719468

/-- Day number of `Date.UTC(y, m, d)` with `m` the JS 0-based month index:
the month index is normalised (`ym = y + floor(m / 12)`, `mn = m mod 12`) and
the day is an offset from day 1 of that month, exactly as in `MakeDay`. -/
def utcDay (y m d : Int) : Int :=
  daysFromCivil (y + m / 12) (m % 12 + 1) 1 + (d - 1)

/-- Civil date `(year, month 1-based, day)` of a day number: the inverse
Hinnant formula (`civil_from_days`), used to model the `getUTCFullYear`,
`getUTCMonth` and `getUTCDate` accessors and ISO rendering. -/
def civilFromDays (z0 : Int) : Int × Int × Int :=
  let z := z0 + 719468
  let era := z / 146097
  let doe := z - era * 146097
  let yoe := (doe - doe / 1460 + doe / 36524 - doe / 146096) / 365
  let y := yoe + era * 400
  let doy := doe - (365 * yoe + yoe / 4 - yoe / 100)
  let mp := (5 * doy + 2) / 153
  let d := doy - (153 * mp + 2) / 5 + 1
  let mth := if mp < 10 then mp + 3 else mp - 9
  (if mth ≤ 2 then y + 1 else y, mth, d)

/-- JavaScript's remainder operator `%` on integers: the result carries the
sign of the dividend (truncated division), unlike Lean's euclidean `%`. -/
def jsRem (a b : Int) : Int := if 0 ≤ a then a % b else -((-a) % b)

/-- Left-pad the decimal rendering of `n` to two digits
(`String(n).padStart(2, "0")`). -/
def pad2 (n : Int) : String := if 0 ≤ n ∧ n < 10 then "0" ++ toString n else toString n

/-- Pad a year to four digits, as in `Date.prototype.toISOString` for years
0..9999. -/
def pad4 (n : Int) : String :=
  if 0 ≤ n ∧ n < 10 then "000" ++ toString n
  else if 0 ≤ n ∧ n < 100 then "00" ++ toString n
  else if 0 ≤ n ∧ n < 1000 then "0" ++ toString n
  else toString n

/-- the string `toISOString().slice(0, 10)` of the Date with day number `n`. -/
def isoDateStr (n : Int) : String :=
  let c := civilFromDays n
  pad4 c.1 ++ "-" ++ pad2 c.2.1 ++ "-" ++ pad2 c.2.2

/-- from `types.ts`: `isoDate(year, monthZeroBased, day)` builds
`new Date(Date.UTC(year, monthZeroBased, day))` and renders it with
`toISOString().slice(0, 10)`. -/
def isoDate (year monthZeroBased day : Int) : String :=
  isoDateStr (utcDay year monthZeroBased day)

/-- the idiom `new Date(year, m + 1, 0).getDate()` (used by `clampDay` in
`recurrence.ts`, by `getDaysInMonth` in `CashflowCalendar.tsx` and by
`daysInMonth` in the page component): day 0 of month `m + 1` is the last day
of month `m`, and its day-of-month is the number of days of month `m`, i.e.
the distance between the starts of consecutive months. -/
def jsDaysInMonth (y m : Int) : Int := utcDay y (m + 1) 1 - utcDay y m 1

-- Confidence checks for the calendar model.
example : daysFromCivil 1970 1 1 = 0 := by decide
example : daysFromCivil 2024 1 1 = 19723 := by decide
example : civilFromDays 19723 = (2024, 1, 1) := by decide
example : civilFromDays 19782 = (2024, 2, 29) := by decide
example : isoDateStr 19723 = "2024-01-01" := by decide
example : isoDate 2024 1 29 = "2024-02-29" := by decide
example : jsDaysInMonth 2024 1 = 29 := by decide
example : jsDaysInMonth 2023 1 = 28 := by decide
example : jsDaysInMonth 2024 0 = 31 := by decide
example : (19723 + 4) % 7 = 1 := by decide   -- 2024-01-01 is a Monday

/-! ### Data model (`types.ts`) -/

/-- `TransactionType = "income" | "expense"`. -/
inductive TxType | income | expense
deriving DecidableEq, Repr

/-- `RecurrenceFrequency = "weekly" | "fortnightly" | "monthly"`. -/
inductive Frequency | weekly | fortnightly | monthly
deriving DecidableEq, Repr

/-- A transaction's `date: string` field.  `iso n` stands for the canonical
`"YYYY-MM-DD"` rendering of day number `n`; `bad s` for any other string,
which parses to an invalid date.  Canonical renderings of distinct day numbers
differ, and no non-canonical string equals a canonical rendering, so the
derived structural equality models JS string equality of the fields. -/
inductive DateField
  | iso (n : Int)
  | bad (s : String)
deriving DecidableEq, Repr

/-- `Transaction` from `types.ts` (the page component's local `Transaction`
has the same runtime shape with the back-reference field spelled `_ruleId`;
`ruleId` models both). -/
structure Transaction where
  id : String
  date : DateField
  type : TxType
  amount : Rat
  note : Option String := none
  source : Option String := none
  ruleId : Option String := none
deriving DecidableEq, Repr

/-- A recurring rule as the generators read it at runtime.  `recurrence.ts`
and the page component read the fields `rule.start` / `rule.end` (ISO date
strings); on a rule shaped per the `RecurringRule` interface of `types.ts`
(whose date fields are named `startDate` / `endDate`) those reads yield
`undefined`.  `start = some n` / `end = some n` model a present field holding
the canonical ISO rendering of day number `n`; `none` models the absent
field, for which `new Date(rule.start + "T00:00:00Z")` is an invalid date and
`rule.end ? ... : undefined` is `undefined`.  The page component's rule
interface lacks `active`; its generator never reads it. -/
structure RecurringRule where
  id : String
  type : TxType
  amount : Rat
  note : Option String := none
  frequency : Frequency
  start : Option Int := none
  «end» : Option Int := none
  weekday : Option Int := none
  dayOfMonth : Option Int := none
  active : Bool := true
deriving DecidableEq, Repr

/-- `CalendarData` from `types.ts` (the fields `computeSnapshots` reads). -/
structure CalendarData where
  startingBalance : Rat
  transactions : List Transaction
  rules : List RecurringRule
deriving DecidableEq, Repr

/-- `CashflowSnapshot` from `types.ts`. -/
structure CashflowSnapshot where
  date : DateField
  dailyDelta : Rat
  runningBalance : Rat
deriving DecidableEq, Repr

/-! ### JS comparison helpers for possibly-invalid dates

Each helper encodes the behaviour of the one comparison site it is used at;
`none` is an invalid date (`NaN`) or an absent value, and every numeric
comparison with `NaN` is false. -/

/-- the test `ruleEnd && ruleEnd < start`: false when `rule.end` is absent
(`ruleEnd` is `undefined`). -/
def optLtB (a : Option Int) (b : Int) : Bool :=
  match a with
  | some x => x < b
  | none => false

/-- the test `ruleStart > end`: false when `ruleStart` is an invalid date. -/
def optGtB (a : Option Int) (b : Int) : Bool :=
  match a with
  | some x => b < x
  | none => false

/-- the test `dateObj >= ruleStart`: false when `ruleStart` is invalid. -/
def geOptB (b : Int) (a : Option Int) : Bool :=
  match a with
  | some x => x ≤ b
  | none => false

/-- the test `!ruleEnd || dateObj <= ruleEnd`. -/
def leOptB (b : Int) (a : Option Int) : Bool :=
  match a with
  | some x => b ≤ x
  | none => true

/-! ### `recurrence.ts` -/

/-- `clampDay(year, monthZeroBased, day)`. -/
def clampDay (year monthZeroBased day : Int) : Int :=
  let last := jsDaysInMonth year monthZeroBased
  min day last

/-- the occurrence identifier template literal `r-${rule.id}-${dateStr}`. -/
def mkOccId (ruleId dateStr : String) : String :=
  "r-" ++ ruleId ++ "-" ++ dateStr

/-- the `Transaction` object literal pushed by `generateOccurrencesForMonth`
for `rule` on the date with day number `n` (whose ISO string is `dateStr`). -/
def mkOccurrence (rule : RecurringRule) (n : Int) : Transaction :=
  { id := mkOccId rule.id (isoDateStr n)
    date := .iso n
    type := rule.type
    amount := rule.amount
    note := rule.note
    source := some "recurring"
    ruleId := some rule.id }

/-- the alignment loop `while (current < start) current.setUTCDate(current.getUTCDate() + 7)`:
it adds 7 days exactly ⌈(start − current)/7⌉ times when `current < start`. -/
def fastForward (startN current : Int) : Int :=
  if current < startN then current + 7 * ((startN - current + 6) / 7) else current

/-- the successive values of `current` in
`while (current <= end) { ...; current.setUTCDate(current.getUTCDate() + 7) }`:
`c, c + 7, c + 14, ...` for as long as the value is `≤ end`, i.e.
`(end − c)/7 + 1` iterations (none when `c > end`). -/
def stepCandidates (c endN : Int) : List Int :=
  (List.range ((endN - c) / 7 + 1).toNat).map (fun (k : Nat) => c + 7 * (k : Int))

/-- `matchesCadence` for the candidate day `n`:
`diffDays = Math.floor((currentDateObj − ruleStart)/86 400 000)` is exact
(both timestamps are UTC midnights) and is `NaN` (`none`) when `rule.start`
is absent; the JS remainder `diffDays % interval` agrees with euclidean `%`
under the guard `diffDays >= 0`, and when `diffDays < 0` the conjunction is
false either way. -/
def matchesCadence (rule : RecurringRule) (interval n : Int) : Bool :=
  match rule.start.map (fun s => n - s) with
  | some d => decide (0 ≤ d) && decide (d % interval = 0)
  | none => false

/-- the `monthly` branch of the per-rule loop of `generateOccurrencesForMonth`. -/
def monthlyOccurrences (year monthZeroBased : Int) (rule : RecurringRule) : List Transaction :=
  let day := clampDay year monthZeroBased (rule.dayOfMonth.getD 1)
  let dateN := utcDay year monthZeroBased day
  if geOptB dateN rule.start && leOptB dateN rule.«end» then
    [mkOccurrence rule dateN]
  else []

/-- the `weekly`/`fortnightly` branch of the per-rule loop of
`generateOccurrencesForMonth`: candidates step by 7 days from the month's
first day matching the rule's weekday (default 1), after the alignment loop;
a candidate is pushed when it matches the cadence anchored at `rule.start`,
lies within the month and within the rule's end bound.  `currentDateObj`
round-trips `current` through its canonical ISO rendering and so equals
`current`. -/
def weeklyOccurrences (year monthZeroBased : Int) (rule : RecurringRule) : List Transaction :=
  let start := utcDay year monthZeroBased 1
  let «end» := utcDay year (monthZeroBased + 1) 0
  let weekday := rule.weekday.getD 1
  let firstOfMonth := utcDay year monthZeroBased 1
  let firstWeekdayOffset := jsRem (weekday - (firstOfMonth + 4) % 7 + 7) 7
  let current0 := firstOfMonth + firstWeekdayOffset
  let interval : Int := if rule.frequency = .weekly then 7 else 14
  let c := fastForward start current0
  (stepCandidates c «end»).filterMap (fun n =>
    if matchesCadence rule interval n
        && decide (start ≤ n) && decide (n ≤ «end») && leOptB n rule.«end»
    then some (mkOccurrence rule n) else none)

/-- the body of the `for (const rule of rules)` loop of
`generateOccurrencesForMonth`: the occurrences pushed for one rule, in push
order.  A rule that is inactive, ends before the month or starts after it
contributes nothing (`continue`); otherwise dispatch on the frequency. -/
def ruleOccurrences (year monthZeroBased : Int) (rule : RecurringRule) : List Transaction :=
  let start := utcDay year monthZeroBased 1
  let «end» := utcDay year (monthZeroBased + 1) 0
  if !rule.active then []
  else if optLtB rule.«end» start then []
  else if optGtB rule.start «end» then []
  else
    match rule.frequency with
    | .monthly => monthlyOccurrences year monthZeroBased rule
    | _ => weeklyOccurrences year monthZeroBased rule

/-- lexicographic order on char lists by code point: JS string `<` for the
ASCII strings compared here. -/
def strLtChars : List Char → List Char → Bool
  | [], [] => false
  | [], _ :: _ => true
  | _ :: _, [] => false
  | c :: a, d :: b =>
    if c.val < d.val then true else if d.val < c.val then false else strLtChars a b

/-- the string a transaction's `date` field holds. -/
def dateKey : DateField → String
  | .iso n => isoDateStr n
  | .bad s => s

/-- the sort comparator `(a, b) => (a.date < b.date ? -1 : a.date > b.date ? 1 : 0)`
as the total preorder it sorts by: `a` may precede `b` unless `b.date < a.date`. -/
def jsDateLe (a b : Transaction) : Bool :=
  !(strLtChars (dateKey b.date).data (dateKey a.date).data)

/-- `generateOccurrencesForMonth(rules, year, monthZeroBased)`: the per-rule
occurrences in rule order, then `results.sort(...)` — a stable sort by date
(modern `Array.prototype.sort` is stable; any stable sort by the same
comparator yields the same list, here insertion sort). -/
def generateOccurrencesForMonth (rules : List RecurringRule) (year monthZeroBased : Int) :
    List Transaction :=
  (rules.flatMap (ruleOccurrences year monthZeroBased)).insertionSort
    (fun a b => jsDateLe a b = true)

/-! ### `CashflowCalendar.tsx` -/

/-- `getDaysInMonth(year, monthZeroBased)` = `new Date(year, monthZeroBased + 1, 0).getDate()`. -/
def getDaysInMonth (year monthZeroBased : Int) : Int := jsDaysInMonth year monthZeroBased

/-- the filter `d.getUTCFullYear() === year && d.getUTCMonth() === monthZeroBased`
on `d = new Date(t.date + "T00:00:00Z")`; for an unparseable date string both
accessors are `NaN` and the comparisons are false. -/
def manualFilter (year monthZeroBased : Int) (t : Transaction) : Bool :=
  match t.date with
  | .iso n =>
    decide ((civilFromDays n).1 = year) && decide ((civilFromDays n).2.1 - 1 = monthZeroBased)
  | .bad _ => false

/-- the list `all` of `computeSnapshots`: the month's generated occurrences,
then the manual transactions whose parsed date has the target year and month,
stably sorted by date with the same comparator as the expander. -/
def mergedTransactions (data : CalendarData) (year monthZeroBased : Int) : List Transaction :=
  let occ := generateOccurrencesForMonth data.rules year monthZeroBased
  let manual := data.transactions.filter (manualFilter year monthZeroBased)
  (occ ++ manual).insertionSort (fun a b => jsDateLe a b = true)

/-- one day's delta in `computeSnapshots`: `todays = all.filter(t => t.date === dateStr)`
and `delta = todays.reduce((acc, t) => acc + (t.type === "income" ? t.amount : -t.amount), 0)`. -/
def dayTotal (all : List Transaction) (dateN : Int) : Rat :=
  (all.filter (fun t => decide (t.date = DateField.iso dateN))).foldl
    (fun acc t => acc + (if t.type = TxType.income then t.amount else -t.amount)) 0

/-- the loop `for (let day = 1; day <= days; day++)` of `computeSnapshots`,
over the explicit list of day numbers it visits, threading `running`. -/
def snapshotsForDays (all : List Transaction) (year monthZeroBased : Int) (running : Rat) :
    List Int → List CashflowSnapshot
  | [] => []
  | day :: rest =>
    let dateN := utcDay year monthZeroBased day
    let delta := dayTotal all dateN
    { date := DateField.iso dateN, dailyDelta := delta, runningBalance := running + delta }
      :: snapshotsForDays all year monthZeroBased (running + delta) rest

/-- the day indices `1, 2, ..., days` the loop visits. -/
def dayRange (days : Int) : List Int :=
  (List.range days.toNat).map (fun (i : Nat) => (i : Int) + 1)

/-- `computeSnapshots(data, year, monthZeroBased)`. -/
def computeSnapshots (data : CalendarData) (year monthZeroBased : Int) : List CashflowSnapshot :=
  snapshotsForDays (mergedTransactions data year monthZeroBased) year monthZeroBased
    data.startingBalance (dayRange (getDaysInMonth year monthZeroBased))

/-! ### The unnamed page component (part_002)

Its generator builds dates with the local-time `Date` constructor
(`new Date(year, month, day)`) and reads them back with `getFullYear` /
`getMonth` / `getDate`; the model assumes a UTC host timezone, matching the
specification's timezone-less calendar dates, so these coincide with the UTC
constructions above.  Parsing a bare `"YYYY-MM-DD"` string (`within`,
`new Date(r.start)`) is UTC midnight in JS either way. -/

namespace Page

/-- the render helper `ymd(date)` =
a template of `getFullYear()` (unpadded) and 2-padded month and day.  For the
years 1000..9999 of interest it coincides with the canonical ISO rendering. -/
def ymd (n : Int) : String :=
  let c := civilFromDays n
  toString c.1 ++ "-" ++ pad2 c.2.1 ++ "-" ++ pad2 c.2.2

/-- `daysInMonth(year, month)` = `new Date(year, month + 1, 0).getDate()`. -/
def daysInMonth (year month : Int) : Int := jsDaysInMonth year month

/-- the page component's `clampDay` (unlike the expander's, it also clamps
from below: `Math.min(Math.max(1, day), dim)`). -/
def clampDay (year month day : Int) : Int :=
  min (max 1 day) (daysInMonth year month)

/-- `within(date, start, end)`: `if (s && d < s) return false; if (e && d > e)
return false; return true`, with a missing bound skipped. -/
def within (d : Int) (start «end» : Option Int) : Bool :=
  (match start with | some s => decide (s ≤ d) | none => true) &&
  (match «end» with | some e => decide (d ≤ e) | none => true)

/-- the occurrence object the page component pushes: identifier
`${r.id}:${dstr}`, back-reference in `_ruleId`. -/
def mkOccurrence (r : RecurringRule) (n : Int) : Transaction :=
  { id := r.id ++ ":" ++ ymd n
    date := .iso n
    type := r.type
    amount := r.amount
    note := r.note
    source := some "recurring"
    ruleId := some r.id }

/-- the loop `while (d.getMonth() === month) { ...; d += 7 days }`, run on
fuel.  Once the guard holds, at most 5 successive candidates share the civil
month, after which the guard fails (consecutive civil months have distinct
indices), so any fuel ≥ 6 computes the exact JS result; the callers pass 8. -/
def weeklyLoop (r : RecurringRule) (month : Int) : Nat → Int → List Transaction
  | 0, _ => []
  | fuel + 1, d =>
    if (civilFromDays d).2.1 - 1 = month then
      (if within d r.start r.«end» then [mkOccurrence r d] else [])
        ++ weeklyLoop r month fuel (d + 7)
    else []

/-- the loop `while (d < monthStart) d += 14 days`: adds 14 days exactly
⌈(monthStart − d)/14⌉ times. -/
def fortnightlyForward (monthStart d : Int) : Int :=
  if d < monthStart then d + 14 * ((monthStart - d + 13) / 14) else d

/-- the loop `while (d.getMonth() === month && d.getFullYear() === year)
{ ...; d += 14 days }`, run on fuel; at most 3 successive candidates share a
civil month, so any fuel ≥ 4 is exact; the callers pass 8. -/
def fortnightlyLoop (r : RecurringRule) (year month : Int) : Nat → Int → List Transaction
  | 0, _ => []
  | fuel + 1, d =>
    if (civilFromDays d).2.1 - 1 = month ∧ (civilFromDays d).1 = year then
      (if within d r.start r.«end» then [mkOccurrence r d] else [])
        ++ fortnightlyLoop r year month fuel (d + 14)
    else []

/-- `generateRecurringOccurrences(year, month)` of the page component, over an
explicit rule list (the source reads `state.recurringRules`).  Notes:
`Number(r.dayOfMonth || 1)` takes 1 for an absent *or zero* day-of-month;
`Number(r.weekday ?? 0)` defaults the weekday to 0 (the expander defaults to
1); there is no cadence check and no `active` check; a fortnightly rule with
an absent `start` gives an invalid date whose loop guards are all false. -/
def generateRecurringOccurrences (rules : List RecurringRule) (year month : Int) :
    List Transaction :=
  rules.flatMap fun r =>
    match r.frequency with
    | .monthly =>
      let day := clampDay year month
        (match r.dayOfMonth with | some d => if d = 0 then 1 else d | none => 1)
      let n := utcDay year month day
      if within n r.start r.«end» then [mkOccurrence r n] else []
    | .weekly =>
      let weekday := r.weekday.getD 0
      let firstOfMonth := utcDay year month 1
      let offset := jsRem (7 + weekday - (firstOfMonth + 4) % 7) 7
      weeklyLoop r month 8 (firstOfMonth + offset)
    | .fortnightly =>
      match r.start with
      | some s => fortnightlyLoop r year month 8 (fortnightlyForward (utcDay year month 1) s)
      | none => []

end Page

-- Confidence checks for the generators (day numbers: 2024-01-01 = 19723,
-- 2024-01-10 = 19732, 2024-01-15 = 19737, 2024-02-12 = 19765, 2023-01-01 = 19358).
example :
    (generateOccurrencesForMonth
      [{ id := "m1", type := .income, amount := 3000, frequency := .monthly,
         start := some 19358, dayOfMonth := some 1, active := true }] 2024 0).map (·.id)
    = ["r-m1-2024-01-01"] := by decide
example :
    (generateOccurrencesForMonth
      [{ id := "f2", type := .income, amount := 10, frequency := .fortnightly,
         start := some 19723, weekday := some 1, active := true }] 2024 1).map (·.date)
    = [.iso 19765, .iso 19779] := by decide

/-! ### Specification-side vocabulary used by the theorems -/

/-- Number of days of the 0-based month `m0` of year `y` by the textbook rule
(February has 28 or 29 days according to the leap year). -/
def daysInMonthSpec (y m0 : Int) : Int :=
  if m0 = 1 then (if isLeap y then 29 else 28)
  else if m0 = 3 ∨ m0 = 5 ∨ m0 = 8 ∨ m0 = 10 then 30 else 31

/-- Sum of the income amounts minus sum of the expense amounts among the
transactions of `all` dated `d` (the specification's daily delta). -/
def dayDeltaSpec (all : List Transaction) (d : DateField) : Rat :=
  ((all.filter (fun t => decide (t.type = TxType.income) && decide (t.date = d))).map
      (·.amount)).sum
    - ((all.filter (fun t => decide (t.type = TxType.expense) && decide (t.date = d))).map
      (·.amount)).sum

/-- A transaction dated outside the target month: its date string either fails
to parse, or parses to a date whose UTC year/month differ from the target. -/
def outsideMonth (year monthZeroBased : Int) (t : Transaction) : Prop :=
  match t.date with
  | .iso n => (civilFromDays n).1 ≠ year ∨ (civilFromDays n).2.1 - 1 ≠ monthZeroBased
  | .bad _ => True

instance (year m : Int) (t : Transaction) : Decidable (outsideMonth year m t) := by
  unfold outsideMonth
  match t.date with
  | .iso n => exact inferInstance
  | .bad s => exact inferInstance

/-- Concrete fortnightly rule whose start date (2024-01-10, a Wednesday) does
not fall on the rule's weekday (1, Monday). -/
def c1rule : RecurringRule :=
  { id := "f1", type := .expense, amount := 50, frequency := .fortnightly,
    start := some 19732, weekday := some 1, active := true }

/-- Concrete monthly rule lacking a day-of-month. -/
def c7rule : RecurringRule :=
  { id := "m0", type := .expense, amount := 5, frequency := .monthly,
    start := some 19358, active := true }

/-- Concrete weekly rule whose start date (2024-01-10, a Wednesday) does not
fall on the rule's weekday (1, Monday). -/
def c9rule : RecurringRule :=
  { id := "w1", type := .expense, amount := 50, frequency := .weekly,
    start := some 19732, weekday := some 1, active := true }

/-! ### Supporting lemmas -/

/-- the JS month-length computation agrees with the textbook month lengths
(including the leap-year rule) on real month indices. -/
theorem jsDaysInMonth_eq_spec (y m0 : Int) (h1 : 0 ≤ m0) (h2 : m0 ≤ 11) :
    jsDaysInMonth y m0 = daysInMonthSpec y m0 := by
  simp only [jsDaysInMonth, utcDay, daysFromCivil, daysInMonthSpec, isLeap]
  interval_cases m0 <;> simp <;> omega

theorem jsDaysInMonth_bounds (y m : Int) :
    28 ≤ jsDaysInMonth y m ∧ jsDaysInMonth y m ≤ 31 := by
  simp only [jsDaysInMonth, utcDay, daysFromCivil]
  omega

theorem utcDay_day_shift (y m d : Int) : utcDay y m d = utcDay y m 1 + (d - 1) := by
  simp only [utcDay]; omega

theorem monthLast_eq (y m : Int) :
    utcDay y (m + 1) 0 = utcDay y m 1 + jsDaysInMonth y m - 1 := by
  simp only [utcDay, jsDaysInMonth]; omega

theorem gen_perm (rules : List RecurringRule) (y m : Int) :
    (generateOccurrencesForMonth rules y m).Perm
      (rules.flatMap (ruleOccurrences y m)) :=
  List.perm_insertionSort _ _

theorem mem_gen {rules : List RecurringRule} {y m : Int} {t : Transaction} :
    t ∈ generateOccurrencesForMonth rules y m ↔ ∃ r ∈ rules, t ∈ ruleOccurrences y m r := by
  rw [(gen_perm rules y m).mem_iff, List.mem_flatMap]

theorem countP_gen_singleton (r : RecurringRule) (y m : Int) (p : Transaction → Bool) :
    (generateOccurrencesForMonth [r] y m).countP p = (ruleOccurrences y m r).countP p := by
  rw [(gen_perm [r] y m).countP_eq]
  simp


theorem matchesCadence_iff (r : RecurringRule) (interval n : Int) :
    matchesCadence r interval n = true ↔
      ∃ s, r.start = some s ∧ 0 ≤ n - s ∧ (n - s) % interval = 0 := by
  cases hs : r.start with
  | none => simp [matchesCadence, hs]
  | some s => simp [matchesCadence, hs]

theorem mem_monthlyOccurrences {y m : Int} {r : RecurringRule} {t : Transaction} :
    t ∈ monthlyOccurrences y m r ↔
      geOptB (utcDay y m (clampDay y m (r.dayOfMonth.getD 1))) r.start = true
      ∧ leOptB (utcDay y m (clampDay y m (r.dayOfMonth.getD 1))) r.«end» = true
      ∧ t = mkOccurrence r (utcDay y m (clampDay y m (r.dayOfMonth.getD 1))) := by
  simp only [monthlyOccurrences]
  split
  next h =>
    rw [Bool.and_eq_true] at h
    simp [h.1, h.2]
  next h =>
    simp only [List.not_mem_nil, false_iff]
    rintro ⟨h1, h2, -⟩
    exact h (by rw [Bool.and_eq_true]; exact ⟨h1, h2⟩)

theorem mem_weeklyOccurrences {y m : Int} {r : RecurringRule} {t : Transaction} :
    t ∈ weeklyOccurrences y m r ↔
      ∃ n ∈ stepCandidates
          (fastForward (utcDay y m 1)
            (utcDay y m 1 + jsRem (r.weekday.getD 1 - (utcDay y m 1 + 4) % 7 + 7) 7))
          (utcDay y (m + 1) 0),
        matchesCadence r (if r.frequency = .weekly then 7 else 14) n = true
        ∧ utcDay y m 1 ≤ n ∧ n ≤ utcDay y (m + 1) 0 ∧ leOptB n r.«end» = true
        ∧ t = mkOccurrence r n := by
  simp only [weeklyOccurrences]
  rw [List.mem_filterMap]
  generalize (if r.frequency = Frequency.weekly then (7 : Int) else 14) = I
  constructor
  · rintro ⟨n, hn, hfn⟩
    refine ⟨n, hn, ?_⟩
    split at hfn
    next h =>
      rw [Bool.and_eq_true, Bool.and_eq_true, Bool.and_eq_true] at h
      obtain ⟨⟨⟨hc, h1⟩, h2⟩, h3⟩ := h
      simp only [Option.some.injEq] at hfn
      exact ⟨hc, of_decide_eq_true h1, of_decide_eq_true h2, h3, hfn.symm⟩
    next => simp at hfn
  · rintro ⟨n, hn, hc, h1, h2, h3, rfl⟩
    refine ⟨n, hn, ?_⟩
    have hcond : (matchesCadence r I n
        && decide (utcDay y m 1 ≤ n) && decide (n ≤ utcDay y (m + 1) 0)
        && leOptB n r.«end») = true := by
      rw [Bool.and_eq_true, Bool.and_eq_true, Bool.and_eq_true]
      exact ⟨⟨⟨hc, decide_eq_true h1⟩, decide_eq_true h2⟩, h3⟩
    simp [hcond]

theorem ruleOccurrences_inactive {y m : Int} {r : RecurringRule} (h : r.active = false) :
    ruleOccurrences y m r = [] := by
  simp [ruleOccurrences, h]

theorem ruleOccurrences_skip_end {y m : Int} {r : RecurringRule}
    (h : optLtB r.«end» (utcDay y m 1) = true) : ruleOccurrences y m r = [] := by
  cases hA : r.active <;> simp [ruleOccurrences, hA, h]

theorem ruleOccurrences_skip_start {y m : Int} {r : RecurringRule}
    (h : optGtB r.start (utcDay y (m + 1) 0) = true) : ruleOccurrences y m r = [] := by
  cases hA : r.active <;> cases hB : optLtB r.«end» (utcDay y m 1) <;>
    simp [ruleOccurrences, hA, hB, h]

theorem ruleOccurrences_active {y m : Int} {r : RecurringRule} (hA : r.active = true)
    (h1 : optLtB r.«end» (utcDay y m 1) = false)
    (h2 : optGtB r.start (utcDay y (m + 1) 0) = false) :
    ruleOccurrences y m r =
      match r.frequency with
      | .monthly => monthlyOccurrences y m r
      | _ => weeklyOccurrences y m r := by
  simp [ruleOccurrences, hA, h1, h2]

theorem mem_stepCandidates {c e n : Int} :
    n ∈ stepCandidates c e ↔ c ≤ n ∧ n ≤ e ∧ (n - c) % 7 = 0 := by
  simp only [stepCandidates, List.mem_map, List.mem_range]
  constructor
  · rintro ⟨k, hk, rfl⟩
    refine ⟨by omega, by omega, by omega⟩
  · intro h
    exact ⟨((n - c) / 7).toNat, by omega, by omega⟩

theorem stepCandidates_nodup (c e : Int) : (stepCandidates c e).Nodup := by
  unfold stepCandidates
  refine List.Nodup.map ?_ (List.nodup_range _)
  intro a b hab
  simp only at hab
  omega

theorem filterMap_if_cons (r : RecurringRule) (p : Int → Bool) (a : Int) (l : List Int) :
    (a :: l).filterMap (fun k => if p k then some (mkOccurrence r k) else none)
      = (if p a then [mkOccurrence r a] else [])
        ++ l.filterMap (fun k => if p k then some (mkOccurrence r k) else none) := by
  rw [List.filterMap_cons]
  by_cases hpa : p a = true
  · simp [hpa]
  · simp [hpa]

theorem countP_filterMap_date (r : RecurringRule) (p : Int → Bool) (l : List Int)
    (hl : l.Nodup) (n : Int) :
    ((l.filterMap (fun k => if p k then some (mkOccurrence r k) else none)).countP
        (fun t => decide (t.date = DateField.iso n)))
      = if n ∈ l ∧ p n = true then 1 else 0 := by
  induction l with
  | nil => simp
  | cons a l ih =>
    rw [List.nodup_cons] at hl
    rw [filterMap_if_cons, List.countP_append, ih hl.2]
    by_cases han : n = a
    · subst han
      have h2 : (if n ∈ l ∧ p n = true then (1 : Nat) else 0) = 0 :=
        if_neg (fun h => hl.1 h.1)
      rw [h2]
      by_cases hpn : p n = true
      · have h3 : (if n ∈ n :: l ∧ p n = true then (1 : Nat) else 0) = 1 :=
          if_pos ⟨List.mem_cons_self _ _, hpn⟩
        have h4 : (if p n = true then [mkOccurrence r n] else []) = [mkOccurrence r n] :=
          if_pos hpn
        rw [h3, h4]
        simp [mkOccurrence]
      · have h3 : (if n ∈ n :: l ∧ p n = true then (1 : Nat) else 0) = 0 :=
          if_neg (fun h => hpn h.2)
        have h4 : (if p n = true then [mkOccurrence r n] else []) = [] := if_neg hpn
        rw [h3, h4]
        rfl
    · have hiff : (n ∈ a :: l ∧ p n = true) ↔ (n ∈ l ∧ p n = true) := by
        simp [List.mem_cons, han]
      rw [if_congr hiff rfl rfl]
      have hz : (if p a = true then [mkOccurrence r a] else []).countP
          (fun t => decide (t.date = DateField.iso n)) = 0 := by
        have han2 : ¬a = n := fun h => han h.symm
        by_cases hpa : p a = true
        · rw [if_pos hpa]
          simp [mkOccurrence, han2]
        · rw [if_neg hpa]
          rfl
      rw [hz]
      simp

/-- Everything that holds of any member of `ruleOccurrences`: the rule is
active, the transaction is the pushed object literal for some day number `n`
on or after the rule's (present) start date and within its end bound; for a
monthly rule `n` is the clamped target day, for the other frequencies `n`
lies in the target month. -/
theorem mem_ruleOccurrences {y m : Int} {r : RecurringRule} {t : Transaction}
    (ht : t ∈ ruleOccurrences y m r) :
    r.active = true ∧ ∃ n : Int, t = mkOccurrence r n
      ∧ (∃ s, r.start = some s ∧ s ≤ n)
      ∧ (∀ e, r.«end» = some e → n ≤ e)
      ∧ (r.frequency = .monthly → n = utcDay y m (clampDay y m (r.dayOfMonth.getD 1)))
      ∧ (r.frequency ≠ .monthly → utcDay y m 1 ≤ n ∧ n ≤ utcDay y (m + 1) 0) := by
  cases hA : r.active with
  | false => rw [ruleOccurrences_inactive hA] at ht; simp at ht
  | true =>
  cases h1 : optLtB r.«end» (utcDay y m 1) with
  | true => rw [ruleOccurrences_skip_end h1] at ht; simp at ht
  | false =>
  cases h2 : optGtB r.start (utcDay y (m + 1) 0) with
  | true => rw [ruleOccurrences_skip_start h2] at ht; simp at ht
  | false =>
  rw [ruleOccurrences_active hA h1 h2] at ht
  refine ⟨rfl, ?_⟩
  clear hA h1 h2
  cases hfreq : r.frequency with
  | monthly =>
    rw [hfreq] at ht
    rw [mem_monthlyOccurrences] at ht
    obtain ⟨hge, hle, rfl⟩ := ht
    refine ⟨_, rfl, ?_, ?_, fun _ => rfl, fun hne => absurd rfl hne⟩
    · cases hs : r.start with
      | none => rw [hs] at hge; simp [geOptB] at hge
      | some s =>
        rw [hs] at hge
        simp only [geOptB] at hge
        exact ⟨s, rfl, of_decide_eq_true hge⟩
    · intro e he
      rw [he] at hle
      simp only [leOptB] at hle
      exact of_decide_eq_true hle
  | weekly =>
    rw [hfreq] at ht
    rw [mem_weeklyOccurrences] at ht
    obtain ⟨n, -, hc, hlo, hhi, hend, rfl⟩ := ht
    obtain ⟨s, hs, hds, -⟩ := (matchesCadence_iff r _ n).mp hc
    refine ⟨n, rfl, ⟨s, hs, by omega⟩, ?_, by simp [hfreq], fun _ => ⟨hlo, hhi⟩⟩
    intro e he
    rw [he] at hend
    simp only [leOptB] at hend
    exact of_decide_eq_true hend
  | fortnightly =>
    rw [hfreq] at ht
    rw [mem_weeklyOccurrences] at ht
    obtain ⟨n, -, hc, hlo, hhi, hend, rfl⟩ := ht
    obtain ⟨s, hs, hds, -⟩ := (matchesCadence_iff r _ n).mp hc
    refine ⟨n, rfl, ⟨s, hs, by omega⟩, ?_, by simp [hfreq], fun _ => ⟨hlo, hhi⟩⟩
    intro e he
    rw [he] at hend
    simp only [leOptB] at hend
    exact of_decide_eq_true hend

theorem ruleOccurrences_start_none {y m : Int} {r : RecurringRule}
    (hs : r.start = none) (he : r.«end» = none) : ruleOccurrences y m r = [] := by
  cases hA : r.active with
  | false => exact ruleOccurrences_inactive hA
  | true =>
    have h1 : optLtB r.«end» (utcDay y m 1) = false := by rw [he]; rfl
    have h2 : optGtB r.start (utcDay y (m + 1) 0) = false := by rw [hs]; rfl
    rw [ruleOccurrences_active hA h1 h2]
    cases hfreq : r.frequency with
    | monthly =>
      show monthlyOccurrences y m r = []
      simp [monthlyOccurrences, hs, geOptB]
    | weekly =>
      show weeklyOccurrences y m r = []
      rw [List.eq_nil_iff_forall_not_mem]
      intro t ht
      rw [mem_weeklyOccurrences] at ht
      obtain ⟨n, -, hc, -⟩ := ht
      obtain ⟨s, hs2, -⟩ := (matchesCadence_iff r _ n).mp hc
      rw [hs] at hs2
      cases hs2
    | fortnightly =>
      show weeklyOccurrences y m r = []
      rw [List.eq_nil_iff_forall_not_mem]
      intro t ht
      rw [mem_weeklyOccurrences] at ht
      obtain ⟨n, -, hc, -⟩ := ht
      obtain ⟨s, hs2, -⟩ := (matchesCadence_iff r _ n).mp hc
      rw [hs] at hs2
      cases hs2

/-- C10: a rule shaped per the `RecurringRule` interface of `types.ts` names
its date fields `startDate`/`endDate`, so the fields `start`/`end` that
`generateOccurrencesForMonth` reads are absent; for such a rule every
start/end comparison and the day-difference cadence check are comparisons
with an invalid date and evaluate to false, so the expander emits no
occurrence for it, for every target month and every frequency. -/
theorem c10_types_shaped_rule_no_occurrences (r : RecurringRule) (y m : Int)
    (hs : r.start = none) (he : r.«end» = none) :
    ruleOccurrences y m r = [] ∧ generateOccurrencesForMonth [r] y m = [] := by
  have hro := ruleOccurrences_start_none (y := y) (m := m) hs he
  refine ⟨hro, ?_⟩
  simp [generateOccurrencesForMonth, hro, List.insertionSort]

theorem c10_witness :
    ({ id := "t1", type := .income, amount := 7, frequency := .monthly,
       dayOfMonth := some 5, active := true } : RecurringRule).start = none
    ∧ generateOccurrencesForMonth
        [{ id := "t1", type := .income, amount := 7, frequency := .monthly,
           dayOfMonth := some 5, active := true }] 2024 0 = [] :=
  ⟨rfl, (c10_types_shaped_rule_no_occurrences _ 2024 0 rfl rfl).2⟩

theorem ruleOccurrences_dayOfMonth_none (y m : Int) (r : RecurringRule)
    (hd : r.dayOfMonth = none) :
    ruleOccurrences y m r = ruleOccurrences y m { r with dayOfMonth := some 1 } := by
  simp [ruleOccurrences, monthlyOccurrences, weeklyOccurrences, mkOccurrence,
    matchesCadence, hd]

/-- C7 counterexample: an active monthly rule lacking a day-of-month is not
skipped; the expander defaults the day-of-month to 1 (`rule.dayOfMonth ?? 1`)
and emits an occurrence on the month's first day. -/
theorem c7_claim_counterexample :
    c7rule.frequency = Frequency.monthly ∧ c7rule.dayOfMonth = none
    ∧ c7rule.active = true
    ∧ (generateOccurrencesForMonth [c7rule] 2024 0).map (·.date)
        = [DateField.iso 19723] := by decide

/-- C7 amended: a monthly rule lacking a day-of-month is treated as having
day-of-month 1 — the expansion of a rule list containing it equals the
expansion with that rule's day-of-month set to 1 (so it yields an occurrence
on the month's first day when the window allows, and the remaining rules are
processed normally). -/
theorem c7_amended_missing_dayOfMonth_defaults_to_one
    (pre post : List RecurringRule) (r : RecurringRule) (y m : Int)
    (_hf : r.frequency = .monthly) (hd : r.dayOfMonth = none) :
    generateOccurrencesForMonth (pre ++ r :: post) y m
      = generateOccurrencesForMonth (pre ++ { r with dayOfMonth := some 1 } :: post) y m := by
  unfold generateOccurrencesForMonth
  rw [List.flatMap_append, List.flatMap_append, List.flatMap_cons, List.flatMap_cons,
    ruleOccurrences_dayOfMonth_none y m r hd]

theorem c7_amended_witness :
    generateOccurrencesForMonth ([] ++ c7rule :: []) 2024 0
      = generateOccurrencesForMonth ([] ++ { c7rule with dayOfMonth := some 1 } :: []) 2024 0 :=
  c7_amended_missing_dayOfMonth_defaults_to_one [] [] c7rule 2024 0 rfl rfl

/-- C9: the two weekly expansion implementations disagree.  For the concrete
weekly rule `c9rule` (weekday Monday, start 2024-01-10 — a Wednesday) over
January 2024, `generateOccurrencesForMonth` (which requires the day offset
from the start date to be a multiple of 7) returns no occurrence, while the
page component's `generateRecurringOccurrences` (no cadence anchoring)
returns the Mondays 2024-01-15/22/29. -/
theorem c9_implementations_disagree :
    c9rule.start = some 19732 ∧ (19732 + 4) % 7 = 3 ∧ c9rule.weekday = some 1
    ∧ (generateOccurrencesForMonth [c9rule] 2024 0).map (·.date) = []
    ∧ (Page.generateRecurringOccurrences [c9rule] 2024 0).map (·.date)
        = [DateField.iso 19737, DateField.iso 19744, DateField.iso 19751]
    ∧ (generateOccurrencesForMonth [c9rule] 2024 0).map (·.date)
        ≠ (Page.generateRecurringOccurrences [c9rule] 2024 0).map (·.date) := by
  decide

theorem monthlyOccurrences_eq (y m : Int) (r : RecurringRule) :
    monthlyOccurrences y m r =
      if geOptB (utcDay y m (clampDay y m (r.dayOfMonth.getD 1))) r.start
          && leOptB (utcDay y m (clampDay y m (r.dayOfMonth.getD 1))) r.«end» then
        [mkOccurrence r (utcDay y m (clampDay y m (r.dayOfMonth.getD 1)))]
      else [] := rfl

theorem ruleOccurrences_monthly_cases (r : RecurringRule) (y m : Int)
    (hf : r.frequency = .monthly) :
    ruleOccurrences y m r = [] ∨ ruleOccurrences y m r = monthlyOccurrences y m r := by
  cases hA : r.active with
  | false => exact Or.inl (ruleOccurrences_inactive hA)
  | true =>
    cases h1 : optLtB r.«end» (utcDay y m 1) with
    | true => exact Or.inl (ruleOccurrences_skip_end h1)
    | false =>
      cases h2 : optGtB r.start (utcDay y (m + 1) 0) with
      | true => exact Or.inl (ruleOccurrences_skip_start h2)
      | false =>
        right
        rw [ruleOccurrences_active hA h1 h2, hf]

/-- C4: every transaction the expander returns is dated (with a canonical ISO
date) within the first and last calendar day of the target month, on/after
its generating rule's present start date and within its end date when
present, and only active rules contribute; inactive rules contribute nothing.
The hypothesis restricts monthly rules to the data model's `dayOfMonth`
range (`1–31`, only the lower bound matters). -/
theorem c4_occurrence_bounds (rules : List RecurringRule) (y m : Int)
    (hdom : ∀ r ∈ rules, ∀ d : Int, r.dayOfMonth = some d → 1 ≤ d) :
    (∀ t ∈ generateOccurrencesForMonth rules y m,
       ∃ n : Int, t.date = DateField.iso n
         ∧ utcDay y m 1 ≤ n ∧ n ≤ utcDay y (m + 1) 0
         ∧ ∃ r ∈ rules, r.active = true ∧ t.ruleId = some r.id
             ∧ (∃ s, r.start = some s ∧ s ≤ n)
             ∧ (∀ e, r.«end» = some e → n ≤ e))
    ∧ (∀ r : RecurringRule, r.active = false → ruleOccurrences y m r = []) := by
  constructor
  · intro t ht
    rw [mem_gen] at ht
    obtain ⟨r, hr, htr⟩ := ht
    obtain ⟨hact, n, rfl, hstart, hend, hmon, hweek⟩ := mem_ruleOccurrences htr
    have hbounds : utcDay y m 1 ≤ n ∧ n ≤ utcDay y (m + 1) 0 := by
      by_cases hf : r.frequency = .monthly
      · have hn := hmon hf
        have hday : 1 ≤ r.dayOfMonth.getD 1 := by
          cases hd : r.dayOfMonth with
          | none => simp
          | some d => simpa using hdom r hr d hd
        have h28 := jsDaysInMonth_bounds y m
        have hshift := utcDay_day_shift y m (clampDay y m (r.dayOfMonth.getD 1))
        have hlast := monthLast_eq y m
        have hclamp : clampDay y m (r.dayOfMonth.getD 1)
            = min (r.dayOfMonth.getD 1) (jsDaysInMonth y m) := rfl
        rw [hn, hshift, hclamp]
        omega
      · exact hweek hf
    exact ⟨n, rfl, hbounds.1, hbounds.2, r, hr, hact, rfl, hstart, hend⟩
  · exact fun r h => ruleOccurrences_inactive h

theorem c4_witness :
    ∃ n : Int, (mkOccurrence c7rule 19723).date = DateField.iso n
      ∧ utcDay 2024 0 1 ≤ n ∧ n ≤ utcDay 2024 1 0
      ∧ ∃ r ∈ [c7rule, c9rule], r.active = true
          ∧ (mkOccurrence c7rule 19723).ruleId = some r.id
          ∧ (∃ s, r.start = some s ∧ s ≤ n)
          ∧ (∀ e, r.«end» = some e → n ≤ e) :=
  (c4_occurrence_bounds [c7rule, c9rule] 2024 0
    (by
      intro r hr d hd
      simp only [List.mem_cons, List.not_mem_nil, or_false] at hr
      rcases hr with rfl | rfl
      · simp [c7rule] at hd
      · simp [c9rule] at hd)).1
    (mkOccurrence c7rule 19723) (by decide)

/-- C5: a monthly rule yields at most one occurrence per month and its target
day is the clamp `min(dayOfMonth ?? 1, lastDayOfTargetMonth)`; in particular
an active monthly rule with `dayOfMonth = 31` whose `[start, end]` window
contains the last day of a February target month (which has 28 or 29 days)
expands over that February to exactly one occurrence dated the month's last
day. -/
theorem c5_monthly_clamping :
    (∀ (r : RecurringRule) (y m : Int), r.frequency = .monthly →
       (ruleOccurrences y m r).length ≤ 1
       ∧ ∀ t ∈ ruleOccurrences y m r,
           t.date = DateField.iso (utcDay y m (min (r.dayOfMonth.getD 1) (jsDaysInMonth y m))))
    ∧ (∀ (r : RecurringRule) (y s : Int), r.frequency = .monthly → r.active = true →
        r.dayOfMonth = some 31 → r.start = some s →
        s ≤ utcDay y 1 (jsDaysInMonth y 1) →
        (∀ e, r.«end» = some e → utcDay y 1 (jsDaysInMonth y 1) ≤ e) →
        (generateOccurrencesForMonth [r] y 1).map (·.date)
            = [DateField.iso (utcDay y 1 (jsDaysInMonth y 1))]
        ∧ (jsDaysInMonth y 1 = 28 ∨ jsDaysInMonth y 1 = 29)) := by
  constructor
  · intro r y m hf
    rcases ruleOccurrences_monthly_cases r y m hf with hro | hro <;> rw [hro]
    · simp
    constructor
    · simp only [monthlyOccurrences]
      split <;> simp
    · intro t ht
      rw [mem_monthlyOccurrences] at ht
      rw [ht.2.2]
      rfl
  · intro r y s hf hA hd hs hsle hendle
    have hdim := jsDaysInMonth_bounds y 1
    have hshift := utcDay_day_shift y 1 (jsDaysInMonth y 1)
    have hlast := monthLast_eq y 1
    have h1 : optLtB r.«end» (utcDay y 1 1) = false := by
      cases he : r.«end» with
      | none => rfl
      | some e =>
        have := hendle e he
        simp only [optLtB, decide_eq_false_iff_not]
        omega
    have h2 : optGtB r.start (utcDay y (1 + 1) 0) = false := by
      rw [hs]
      simp only [optGtB, decide_eq_false_iff_not]
      omega
    have hclamp : clampDay y 1 (r.dayOfMonth.getD 1) = jsDaysInMonth y 1 := by
      rw [hd]
      simp only [Option.getD_some, clampDay]
      omega
    have hge : geOptB (utcDay y 1 (jsDaysInMonth y 1)) r.start = true := by
      rw [hs]
      simp only [geOptB, decide_eq_true_eq]
      omega
    have hle : leOptB (utcDay y 1 (jsDaysInMonth y 1)) r.«end» = true := by
      cases he : r.«end» with
      | none => rfl
      | some e =>
        have := hendle e he
        simp only [leOptB, decide_eq_true_eq]
        omega
    have hro : ruleOccurrences y 1 r = [mkOccurrence r (utcDay y 1 (jsDaysInMonth y 1))] := by
      rw [ruleOccurrences_active hA h1 h2, hf]
      show monthlyOccurrences y 1 r = _
      rw [monthlyOccurrences_eq, hclamp, hge, hle]
      simp
    constructor
    · simp [generateOccurrencesForMonth, hro, List.insertionSort, List.orderedInsert,
        mkOccurrence]
    · have := jsDaysInMonth_eq_spec y 1 (by omega) (by omega)
      rw [this]
      unfold daysInMonthSpec
      cases isLeap y <;> simp

theorem c5_witness :
    (generateOccurrencesForMonth
        [{ id := "jan31", type := .expense, amount := 9, frequency := .monthly,
           start := some 19358, «end» := some 20148, dayOfMonth := some 31,
           active := true }] 2024 1).map (·.date)
      = [DateField.iso (utcDay 2024 1 (jsDaysInMonth 2024 1))]
    ∧ (jsDaysInMonth 2024 1 = 28 ∨ jsDaysInMonth 2024 1 = 29) :=
  c5_monthly_clamping.2 _ 2024 19358 rfl rfl rfl rfl (by decide)
    (by intro e he; injection he with h; subst h; decide)

theorem string_eq_of_data_eq {s t : String} (h : s.data = t.data) : s = t := by
  cases s; cases t; simp_all

theorem mkOccId_inj (a b d1 d2 : String) (h1 : d1.length = 10) (h2 : d2.length = 10)
    (h : mkOccId a d1 = mkOccId b d2) : a = b ∧ d1 = d2 := by
  have hd : (mkOccId a d1).data = (mkOccId b d2).data := by rw [h]
  simp only [mkOccId, String.data_append, List.append_assoc] at hd
  have hd2 : a.data ++ (['-'] ++ d1.data) = b.data ++ (['-'] ++ d2.data) :=
    List.append_inj_right hd rfl
  have hlen : (d1.data).length = (d2.data).length := by
    have e1 : d1.data.length = d1.length := rfl
    have e2 : d2.data.length = d2.length := rfl
    rw [e1, e2, h1, h2]
  have hlen2 : (['-'] ++ d1.data).length = (['-'] ++ d2.data).length := by
    simp [hlen]
  have h3 := List.append_inj' hd2 hlen2
  have hdd : d1.data = d2.data := by simpa using h3.2
  exact ⟨string_eq_of_data_eq h3.1, string_eq_of_data_eq hdd⟩

/-- C6: expansion is deterministic (re-running with identical inputs yields
the identical list — it is a pure function of its arguments); every returned
transaction's identifier is the deterministic function `mkOccId` of the
generating rule's identifier and the occurrence's ISO date string; and
`mkOccId` never collides for distinct `(ruleId, date)` pairs whose dates are
10-character ISO date strings. -/
theorem c6_identity_and_idempotence :
    (∀ (rules : List RecurringRule) (y m : Int),
       generateOccurrencesForMonth rules y m = generateOccurrencesForMonth rules y m)
    ∧ (∀ (rules : List RecurringRule) (y m : Int) (t : Transaction),
        t ∈ generateOccurrencesForMonth rules y m →
          ∃ r ∈ rules, ∃ n : Int, t.ruleId = some r.id ∧ t.date = DateField.iso n
            ∧ t.id = mkOccId r.id (isoDateStr n))
    ∧ (∀ a b d1 d2 : String, d1.length = 10 → d2.length = 10 →
        (a, d1) ≠ (b, d2) → mkOccId a d1 ≠ mkOccId b d2) := by
  refine ⟨fun _ _ _ => rfl, ?_, ?_⟩
  · intro rules y m t ht
    rw [mem_gen] at ht
    obtain ⟨r, hr, htr⟩ := ht
    obtain ⟨-, n, rfl, -⟩ := mem_ruleOccurrences htr
    exact ⟨r, hr, n, rfl, rfl, rfl⟩
  · intro a b d1 d2 h1 h2 hne h
    exact hne (by
      obtain ⟨hab, hd⟩ := mkOccId_inj a b d1 d2 h1 h2 h
      rw [hab, hd])

theorem c6_witness :
    mkOccId "a" "2024-01-05" ≠ mkOccId "b" "2024-01-05" :=
  c6_identity_and_idempotence.2.2 "a" "b" "2024-01-05" "2024-01-05" rfl rfl
    (by decide)

theorem matchesCadence_some (r : RecurringRule) (I n s : Int) (hs : r.start = some s) :
    matchesCadence r I n = (decide (0 ≤ n - s) && decide ((n - s) % I = 0)) := by
  simp [matchesCadence, hs]

theorem countP_weeklyOccurrences (r : RecurringRule) (y m w s n : Int)
    (hw : r.weekday = some w) (hw0 : 0 ≤ w) (hw6 : w ≤ 6) (hs : r.start = some s) :
    (weeklyOccurrences y m r).countP (fun t => decide (t.date = DateField.iso n))
      = if utcDay y m 1 ≤ n ∧ n ≤ utcDay y (m + 1) 0 ∧ (n + 4) % 7 = w ∧ s ≤ n
           ∧ leOptB n r.«end» = true
           ∧ (n - s) % (if r.frequency = .weekly then 7 else 14) = 0
        then 1 else 0 := by
  have hwe : weeklyOccurrences y m r
      = (stepCandidates
            (fastForward (utcDay y m 1)
              (utcDay y m 1 + jsRem (r.weekday.getD 1 - (utcDay y m 1 + 4) % 7 + 7) 7))
            (utcDay y (m + 1) 0)).filterMap
          (fun k =>
            if matchesCadence r (if r.frequency = .weekly then 7 else 14) k
                && decide (utcDay y m 1 ≤ k) && decide (k ≤ utcDay y (m + 1) 0)
                && leOptB k r.«end»
            then some (mkOccurrence r k) else none) := rfl
  rw [hwe, countP_filterMap_date r _ _ (stepCandidates_nodup _ _) n]
  have hgetD : r.weekday.getD 1 = w := by rw [hw]; rfl
  rw [hgetD]
  have hoff : jsRem (w - (utcDay y m 1 + 4) % 7 + 7) 7
      = (w - (utcDay y m 1 + 4) % 7 + 7) % 7 := by
    unfold jsRem
    rw [if_pos]
    omega
  rw [hoff]
  have hff : fastForward (utcDay y m 1)
      (utcDay y m 1 + (w - (utcDay y m 1 + 4) % 7 + 7) % 7)
      = utcDay y m 1 + (w - (utcDay y m 1 + 4) % 7 + 7) % 7 := by
    unfold fastForward
    rw [if_neg]
    omega
  rw [hff]
  refine if_congr ?_ rfl rfl
  cases hleo : leOptB n r.«end» with
  | false => simp [hleo, mem_stepCandidates, Bool.and_eq_true]
  | true =>
    have hF0 : 0 ≤ (utcDay y m 1 + 4) % 7 := Int.emod_nonneg _ (by norm_num)
    have hF7 : (utcDay y m 1 + 4) % 7 < 7 := Int.emod_lt_of_pos _ (by norm_num)
    by_cases hfr : r.frequency = Frequency.weekly
    · simp only [mem_stepCandidates, Bool.and_eq_true, decide_eq_true_eq, hleo, and_true,
        true_and, matchesCadence_some r _ n s hs, hfr, if_true]
      rcases le_or_lt ((utcDay y m 1 + 4) % 7) w with hcmp | hcmp
      · have hoff2 : (w - (utcDay y m 1 + 4) % 7 + 7) % 7
            = w - (utcDay y m 1 + 4) % 7 := by omega
        rw [hoff2]
        have hkey : ((n - (utcDay y m 1 + (w - (utcDay y m 1 + 4) % 7))) % 7 = 0)
            ↔ ((n + 4) % 7 = w) := by omega
        rw [hkey]
        omega
      · have hoff2 : (w - (utcDay y m 1 + 4) % 7 + 7) % 7
            = w - (utcDay y m 1 + 4) % 7 + 7 := by omega
        rw [hoff2]
        have hkey : ((n - (utcDay y m 1 + (w - (utcDay y m 1 + 4) % 7 + 7))) % 7 = 0)
            ↔ ((n + 4) % 7 = w) := by omega
        rw [hkey]
        omega
    · simp only [mem_stepCandidates, Bool.and_eq_true, decide_eq_true_eq, hleo, and_true,
        true_and, matchesCadence_some r _ n s hs, if_neg hfr]
      rcases le_or_lt ((utcDay y m 1 + 4) % 7) w with hcmp | hcmp
      · have hoff2 : (w - (utcDay y m 1 + 4) % 7 + 7) % 7
            = w - (utcDay y m 1 + 4) % 7 := by omega
        rw [hoff2]
        have hkey : ((n - (utcDay y m 1 + (w - (utcDay y m 1 + 4) % 7))) % 7 = 0)
            ↔ ((n + 4) % 7 = w) := by omega
        rw [hkey]
        omega
      · have hoff2 : (w - (utcDay y m 1 + 4) % 7 + 7) % 7
            = w - (utcDay y m 1 + 4) % 7 + 7 := by omega
        rw [hoff2]
        have hkey : ((n - (utcDay y m 1 + (w - (utcDay y m 1 + 4) % 7 + 7))) % 7 = 0)
            ↔ ((n + 4) % 7 = w) := by omega
        rw [hkey]
        omega

/-- C1 counterexample: the claim characterizes a fortnightly rule's
occurrences as exactly the in-month, in-window dates whose offset from the
start date is a non-negative multiple of 14 — with no reference to the rule's
`weekday` field.  For `c1rule` (weekday Monday, start 2024-01-10, a
Wednesday) and January 2024, the date 2024-01-10 (day 19732) satisfies that
characterization (offset 0), yet the expander — whose candidates are anchored
to the rule's weekday — returns no occurrence on it. -/
theorem c1_claim_counterexample :
    c1rule.frequency = Frequency.fortnightly ∧ c1rule.active = true
    ∧ c1rule.start = some 19732 ∧ c1rule.weekday = some 1
    ∧ ¬ ((generateOccurrencesForMonth [c1rule] 2024 0).countP
          (fun t => decide (t.date = DateField.iso 19732))
        = if utcDay 2024 0 1 ≤ 19732 ∧ (19732 : Int) ≤ utcDay 2024 1 0
             ∧ (19732 : Int) ≤ 19732 ∧ leOptB 19732 c1rule.«end» = true
             ∧ ((19732 : Int) - 19732) % 14 = 0
          then 1 else 0) := by decide

/-- C1 amended: for an active weekly or fortnightly rule with a present start
date and a weekday in 0..6, the expander's occurrences for a month are
exactly (one occurrence each) the calendar dates of that month that fall on
the *rule's weekday*, lie within the rule's `[start, end]` window, and whose
offset in days from the start date is a non-negative multiple of the interval
(7 for weekly, 14 for fortnightly).  For weekly rules this is the claim as
stated; for fortnightly rules the claim must additionally require the date to
fall on the rule's weekday (when the start date falls on the rule's weekday
the two readings coincide). -/
theorem c1_amended_cadence_characterization (r : RecurringRule) (y m w s : Int)
    (hact : r.active = true) (hw : r.weekday = some w) (hw0 : 0 ≤ w) (hw6 : w ≤ 6)
    (hs : r.start = some s) (hmf : r.frequency ≠ Frequency.monthly) (n : Int) :
    (generateOccurrencesForMonth [r] y m).countP
        (fun t => decide (t.date = DateField.iso n))
      = if utcDay y m 1 ≤ n ∧ n ≤ utcDay y (m + 1) 0 ∧ (n + 4) % 7 = w ∧ s ≤ n
           ∧ leOptB n r.«end» = true
           ∧ (n - s) % (if r.frequency = .weekly then 7 else 14) = 0
        then 1 else 0 := by
  rw [countP_gen_singleton]
  cases h1 : optLtB r.«end» (utcDay y m 1) with
  | true =>
    rw [ruleOccurrences_skip_end h1, List.countP_nil]
    obtain ⟨e, he, helt⟩ : ∃ e, r.«end» = some e ∧ e < utcDay y m 1 := by
      cases hE : r.«end» with
      | none => rw [hE] at h1; simp [optLtB] at h1
      | some e =>
        rw [hE] at h1
        exact ⟨e, rfl, by simpa [optLtB] using h1⟩
    have hnot : ¬(utcDay y m 1 ≤ n ∧ n ≤ utcDay y (m + 1) 0 ∧ (n + 4) % 7 = w ∧ s ≤ n
        ∧ leOptB n r.«end» = true
        ∧ (n - s) % (if r.frequency = .weekly then 7 else 14) = 0) := by
      rintro ⟨ha, hb, hc, hd2, hle, hf⟩
      rw [he] at hle
      simp only [leOptB, decide_eq_true_eq] at hle
      omega
    rw [if_neg hnot]
  | false =>
    cases h2 : optGtB r.start (utcDay y (m + 1) 0) with
    | true =>
      rw [ruleOccurrences_skip_start h2, List.countP_nil]
      rw [hs] at h2
      have hlt : utcDay y (m + 1) 0 < s := by simpa [optGtB] using h2
      have hnot : ¬(utcDay y m 1 ≤ n ∧ n ≤ utcDay y (m + 1) 0 ∧ (n + 4) % 7 = w ∧ s ≤ n
          ∧ leOptB n r.«end» = true
          ∧ (n - s) % (if r.frequency = .weekly then 7 else 14) = 0) := by
        rintro ⟨ha, hb, hc, hd2, hle, hf⟩
        omega
      rw [if_neg hnot]
    | false =>
      rw [ruleOccurrences_active hact h1 h2]
      cases hfreq : r.frequency with
      | monthly => exact absurd hfreq hmf
      | weekly =>
        show (weeklyOccurrences y m r).countP _ = _
        rw [countP_weeklyOccurrences r y m w s n hw hw0 hw6 hs, hfreq]
      | fortnightly =>
        show (weeklyOccurrences y m r).countP _ = _
        rw [countP_weeklyOccurrences r y m w s n hw hw0 hw6 hs, hfreq]

theorem c1_amended_witness :
    (generateOccurrencesForMonth
        [{ id := "f2", type := .income, amount := 10, frequency := .fortnightly,
           start := some 19723, weekday := some 1, active := true }] 2024 1).countP
        (fun t => decide (t.date = DateField.iso 19765)) = 1 := by
  have h := c1_amended_cadence_characterization
    { id := "f2", type := .income, amount := 10, frequency := .fortnightly,
      start := some 19723, weekday := some 1, active := true }
    2024 1 1 19723 rfl rfl (by decide) (by decide) rfl (by decide) 19765
  rw [h, if_pos (by decide)]

theorem snapshotsForDays_cons (all : List Transaction) (y m : Int) (b : Rat) (d : Int)
    (ds : List Int) :
    snapshotsForDays all y m b (d :: ds)
      = { date := DateField.iso (utcDay y m d),
          dailyDelta := dayTotal all (utcDay y m d),
          runningBalance := b + dayTotal all (utcDay y m d) }
        :: snapshotsForDays all y m (b + dayTotal all (utcDay y m d)) ds := rfl

theorem snapshotsForDays_map_date (all : List Transaction) (y m : Int) :
    ∀ (ds : List Int) (b : Rat),
      (snapshotsForDays all y m b ds).map (·.date)
        = ds.map (fun d => DateField.iso (utcDay y m d))
  | [], _ => rfl
  | d :: ds, b => by
    rw [snapshotsForDays_cons, List.map_cons, List.map_cons,
      snapshotsForDays_map_date all y m ds]

theorem mem_snapshotsForDays (all : List Transaction) (y m : Int) :
    ∀ (ds : List Int) (b : Rat), ∀ s ∈ snapshotsForDays all y m b ds,
      ∃ nn : Int, s.date = DateField.iso nn ∧ s.dailyDelta = dayTotal all nn
  | [], _, s, hs => by simp [snapshotsForDays] at hs
  | d :: ds, b, s, hs => by
    rw [snapshotsForDays_cons, List.mem_cons] at hs
    rcases hs with rfl | hs
    · exact ⟨utcDay y m d, rfl, rfl⟩
    · exact mem_snapshotsForDays all y m ds _ s hs

theorem snapshotsForDays_run (all : List Transaction) (y m : Int) :
    ∀ (ds : List Int) (b : Rat) (i : Nat) (s : CashflowSnapshot),
      (snapshotsForDays all y m b ds)[i]? = some s →
        s.runningBalance = b + (((snapshotsForDays all y m b ds).map (·.dailyDelta)).take (i + 1)).sum
  | [], _, i, s, h => by simp [snapshotsForDays] at h
  | d :: ds, b, 0, s, h => by
    rw [snapshotsForDays_cons] at h ⊢
    simp only [List.getElem?_cons_zero, Option.some.injEq] at h
    subst h
    simp
  | d :: ds, b, i + 1, s, h => by
    rw [snapshotsForDays_cons] at h ⊢
    rw [List.getElem?_cons_succ] at h
    rw [snapshotsForDays_run all y m ds (b + dayTotal all (utcDay y m d)) i s h]
    simp only [List.map_cons, List.take_succ_cons, List.sum_cons]
    ring

theorem foldl_signed_sum (l : List Transaction) : ∀ (a : Rat),
    l.foldl (fun acc t => acc + (if t.type = TxType.income then t.amount else -t.amount)) a
      = a + ((l.filter (fun t => decide (t.type = TxType.income))).map (·.amount)).sum
          - ((l.filter (fun t => decide (t.type = TxType.expense))).map (·.amount)).sum := by
  induction l with
  | nil => intro a; simp
  | cons t l ih =>
    intro a
    rw [List.foldl_cons, ih]
    cases htype : t.type <;> simp [List.filter_cons, htype] <;> ring

theorem dayTotal_eq_spec (all : List Transaction) (nn : Int) :
    dayTotal all nn = dayDeltaSpec all (DateField.iso nn) := by
  unfold dayTotal dayDeltaSpec
  rw [foldl_signed_sum, List.filter_filter, List.filter_filter]
  simp

/-- C2: the running balance is a prefix sum — each snapshot's running balance
is the starting balance plus the sum of all daily deltas up to and including
its own — and each day's delta is the sum of that day's income amounts minus
the sum of that day's expense amounts over the merged transaction list. -/
theorem c2_running_balance_prefix_sum (data : CalendarData) (y m : Int) (i : Nat)
    (s : CashflowSnapshot) (h : (computeSnapshots data y m)[i]? = some s) :
    s.runningBalance
      = data.startingBalance
        + (((computeSnapshots data y m).map (·.dailyDelta)).take (i + 1)).sum
    ∧ s.dailyDelta = dayDeltaSpec (mergedTransactions data y m) s.date := by
  constructor
  · exact snapshotsForDays_run (mergedTransactions data y m) y m
      (dayRange (getDaysInMonth y m)) data.startingBalance i s h
  · have hmem : s ∈ computeSnapshots data y m := by
      have hlt : i < (computeSnapshots data y m).length := by
        by_contra hge
        rw [List.getElem?_eq_none (by omega)] at h
        cases h
      rw [List.getElem?_eq_getElem hlt] at h
      cases h
      exact List.getElem_mem hlt
    obtain ⟨nn, hdate, hdelta⟩ := mem_snapshotsForDays (mergedTransactions data y m) y m
      (dayRange (getDaysInMonth y m)) data.startingBalance s hmem
    rw [hdelta, hdate, dayTotal_eq_spec]

theorem c2_witness :
    ((computeSnapshots ⟨0, [], []⟩ 2024 0).get ⟨0, by decide⟩).runningBalance
        = (⟨0, [], []⟩ : CalendarData).startingBalance
          + (((computeSnapshots ⟨0, [], []⟩ 2024 0).map (·.dailyDelta)).take 1).sum :=
  (c2_running_balance_prefix_sum ⟨0, [], []⟩ 2024 0 0
    ((computeSnapshots ⟨0, [], []⟩ 2024 0).get ⟨0, by decide⟩)
    (List.getElem?_eq_getElem (by decide))).1

/-- C3: the projection returns one snapshot per calendar day of the target
month — exactly `daysInMonth(year, month)` of them, with the leap-year rule —
and their dates are precisely the sequential dates of the month, without gaps
or duplicates. -/
theorem c3_snapshot_dates_cover_month (data : CalendarData) (y m : Int)
    (h0 : 0 ≤ m) (h11 : m ≤ 11) :
    (computeSnapshots data y m).map (·.date)
        = (dayRange (daysInMonthSpec y m)).map (fun d => DateField.iso (utcDay y m d))
    ∧ (computeSnapshots data y m).length = (daysInMonthSpec y m).toNat
    ∧ ((computeSnapshots data y m).map (·.date)).Nodup := by
  have hdays : getDaysInMonth y m = daysInMonthSpec y m := by
    show jsDaysInMonth y m = _
    exact jsDaysInMonth_eq_spec y m h0 h11
  have h1 : (computeSnapshots data y m).map (·.date)
      = (dayRange (daysInMonthSpec y m)).map (fun d => DateField.iso (utcDay y m d)) := by
    show (snapshotsForDays (mergedTransactions data y m) y m data.startingBalance
        (dayRange (getDaysInMonth y m))).map (·.date) = _
    rw [snapshotsForDays_map_date, hdays]
  refine ⟨h1, ?_, ?_⟩
  · have h3 : (computeSnapshots data y m).length
        = ((computeSnapshots data y m).map (·.date)).length := (List.length_map _ _).symm
    rw [h3, h1, List.length_map]
    simp [dayRange]
  · rw [h1]
    refine List.Nodup.map ?_ ?_
    · intro a b hab
      simp only [DateField.iso.injEq] at hab
      have ha := utcDay_day_shift y m a
      have hb := utcDay_day_shift y m b
      omega
    · unfold dayRange
      refine List.Nodup.map ?_ (List.nodup_range _)
      intro a b hab
      simp only at hab
      omega

theorem c3_witness :
    (computeSnapshots ⟨0, [], []⟩ 2024 1).length = (daysInMonthSpec 2024 1).toNat :=
  (c3_snapshot_dates_cover_month ⟨0, [], []⟩ 2024 1 (by decide) (by decide)).2.1

/-- C8: the projection is a total function (in this model every embedded
function is total, and no operation in `computeSnapshots` can throw), and a
transaction dated outside the target month — its date string parsing to a
date of a different year/month, or not parsing at all — is excluded by the
month filter, so the output equals the projection of the remaining
transactions. -/
theorem c8_outside_month_excluded (data : CalendarData) (y m : Int) (t : Transaction)
    (pre post : List Transaction) (htx : data.transactions = pre ++ t :: post)
    (hout : outsideMonth y m t) :
    computeSnapshots data y m
      = computeSnapshots { data with transactions := pre ++ post } y m := by
  have hmf : manualFilter y m t = false := by
    unfold manualFilter
    unfold outsideMonth at hout
    cases hd : t.date with
    | iso n =>
      rw [hd] at hout
      rcases hout with h | h <;> simp [h]
    | bad s => rfl
  unfold computeSnapshots mergedTransactions
  rw [htx]
  simp only [List.filter_append, List.filter_cons, hmf, Bool.false_eq_true, if_false]

theorem c8_witness :
    computeSnapshots
        ⟨5, [{ id := "x", date := DateField.iso 0, type := TxType.expense, amount := 3 }], []⟩
        2024 0
      = computeSnapshots ⟨5, [] ++ [], []⟩ 2024 0 :=
  c8_outside_month_excluded
    ⟨5, [{ id := "x", date := DateField.iso 0, type := TxType.expense, amount := 3 }], []⟩
    2024 0 _ [] [] rfl (by decide)
